import Mathlib

/-!
Shallow embedding of the Fluxity token-streaming contract
(src/base/contract.rs) together with the accrual calculators and the
storage layer it calls. The lifecycle operations (`create_stream`,
`create_vesting`, `cancel_stream`, `withdraw_stream`, `get_stream`,
`get_latest_stream_id`) are translated line by line from contract.rs.
The `utils` and `storage` modules are not part of the available source,
so their semantics are modelled from the specification (each such
definition is marked `Modelled from the spec:` in its doc comment).

Machine-integer notes: timestamps are Rust u64, embedded as Nat (the
contract only compares timestamps; the calculators subtract only when
the minuend is larger, so no wraparound occurs); token amounts are Rust
i128, embedded as Int (all arithmetic performed by the contract stays
within quantities bounded by the stream amount, so overflow does not
arise in the properties below); Rust integer division on the
nonnegative operands used here agrees with Lean Int division.

A Rust panic (such as `Option::unwrap` / `Result::unwrap` on a missing
value, which traps the Soroban host) is modelled by the `Outcome.trap`
constructor. External effects (token transfers, record stores, the id
counter bump, event publication) are modelled as an ordered list of
`Action` values returned next to the outcome; a failing operation
returns the empty list, matching the early returns in the source.
-/

namespace Fluxity

/-- Error type, the variants of `errors::CustomErrors` used by contract.rs. -/
inductive CustomErrors where
  | StreamNotFound
  | InvalidAmount
  | InvalidReceiver
  | InvalidStartDate
  | InvalidCancellableDate
  | InvalidCliffDate
  | StreamAlreadyCanceled
  | StreamAlreadySettled
  | StreamNotCancellableYet
  | AmountUnderflows
  | StreamIsCanceled
  | StreamNotStartedYet
  | SpecifiedAmountIsGreaterThanWithdrawable
  deriving DecidableEq, Repr

/-- Modelled from the spec: the `Rate` granularity enum for vesting streams
(per-day / per-week / per-month step), fixed-duration periods in seconds.
The `types` module is not in the available source; only positivity of the
period length matters for the proofs below. -/
inductive Rate where
  | daily
  | weekly
  | monthly
  deriving DecidableEq, Repr

/-- Modelled from the spec: fixed period length in seconds of a `Rate`. -/
def Rate.seconds : Rate → Nat
  | .daily => 86400
  | .weekly => 604800
  | .monthly => 2592000

theorem Rate.seconds_pos (r : Rate) : 0 < r.seconds := by
  cases r <;> simp [Rate.seconds]

/-- Addresses are opaque identities; only equality is used by the contract. -/
abbrev Address := Nat

/-- The stored stream record (`types::StreamType`), fields as used by
contract.rs: identities, the deposited amount, the four schedule dates,
the cumulative `withdrawn`, cancellation data and the accrual selector. -/
structure StreamType where
  sender : Address
  receiver : Address
  token : Address
  amount : Int
  start_date : Nat
  cancellable_date : Nat
  cliff_date : Nat
  end_date : Nat
  withdrawn : Int
  is_cancelled : Bool
  cancelled_date : Nat
  is_vesting : Bool
  rate : Rate
  deriving DecidableEq, Repr

/-- Result record of the amount calculators: the unvested part owed back to
the sender and the vested part owed to the receiver. -/
structure StreamAmounts where
  sender_amount : Int
  receiver_amount : Int
  deriving DecidableEq, Repr

/-- Modelled from the spec: `utils::calculate_stream_amounts`, continuous
linear accrual. Before or at `start` nothing is vested; at or after
`end` everything is; in between the receiver gets
`floor(amount * (now - start) / (end - start))` and the sender the exact
remainder. The cliff is not applied here; callers gate on it. -/
def calculate_stream_amounts (start_date end_date _cliff_date now : Nat)
    (amount : Int) : StreamAmounts :=
  if now ≤ start_date then
    { sender_amount := amount, receiver_amount := 0 }
  else if end_date ≤ now then
    { sender_amount := 0, receiver_amount := amount }
  else
    let r := amount * ((now : Int) - (start_date : Int)) /
      ((end_date : Int) - (start_date : Int))
    { sender_amount := amount - r, receiver_amount := r }

/-- Modelled from the spec: `utils::calculate_vesting_amounts`, step-wise
accrual. The schedule is divided into `total_periods = ceil((end - start) /
period)` periods of `rate.seconds` seconds; `elapsed_periods =
floor((now - start) / period)` clamped to `[0, total_periods]`; the receiver
gets `floor(amount * elapsed_periods / total_periods)` and the sender the
exact remainder. Before or at `start` nothing is vested; at or after `end`
everything is, regardless of period rounding. -/
def calculate_vesting_amounts (start_date end_date _cliff_date now : Nat)
    (rate : Rate) (amount : Int) : StreamAmounts :=
  if now ≤ start_date then
    { sender_amount := amount, receiver_amount := 0 }
  else if end_date ≤ now then
    { sender_amount := 0, receiver_amount := amount }
  else
    let p := rate.seconds
    let total : Nat := (end_date - start_date + p - 1) / p
    let elapsed : Nat := min ((now - start_date) / p) total
    let r := amount * (elapsed : Int) / (total : Int)
    { sender_amount := amount - r, receiver_amount := r }

/-- The vested/unvested split of a stored stream at time `now`, selecting
the calculator by the record's `is_vesting` flag, exactly as the bodies of
`cancel_stream` and `withdraw_stream` do. -/
def streamAmountsOf (st : StreamType) (now : Nat) : StreamAmounts :=
  if st.is_vesting then
    calculate_vesting_amounts st.start_date st.end_date st.cliff_date now
      st.rate st.amount
  else
    calculate_stream_amounts st.start_date st.end_date st.cliff_date now
      st.amount

/-- Input parameters of `create_stream` / `create_vesting`
(`types::StreamInputType` / `types::VestingInputType`; per the doc examples
in contract.rs both carry the same fields). -/
structure StreamInputType where
  sender : Address
  receiver : Address
  token : Address
  amount : Int
  start_date : Nat
  cancellable_date : Nat
  cliff_date : Nat
  end_date : Nat
  rate : Rate
  deriving DecidableEq, Repr

/-- Modelled from the spec: the `params.into()` conversion used by
`create_stream`; the new record starts with `withdrawn = 0`,
`is_cancelled = false` and, for `create_stream`, `is_vesting = false`. -/
def StreamInputType.intoStream (p : StreamInputType) : StreamType :=
  { sender := p.sender, receiver := p.receiver, token := p.token
    amount := p.amount, start_date := p.start_date
    cancellable_date := p.cancellable_date, cliff_date := p.cliff_date
    end_date := p.end_date, withdrawn := 0, is_cancelled := false
    cancelled_date := 0, is_vesting := false, rate := p.rate }

/-- Modelled from the spec: the `params.into()` conversion used by
`create_vesting`; identical to `intoStream` but flags `is_vesting = true`. -/
def StreamInputType.intoVesting (p : StreamInputType) : StreamType :=
  { p.intoStream with is_vesting := true }

/-- Event kinds published by the four mutating operations. -/
inductive EventKind where
  | streamCreated
  | vestingCreated
  | streamCancelled
  | streamWithdrawn
  deriving DecidableEq, Repr

/-- One external effect of an operation, in execution order: a persistent
record store, a token transfer out of the contract, a token pull into the
contract, the id-counter bump, or an event publication. -/
inductive Action where
  | setStream : Nat → StreamType → Action
  | transfer : Address → Address → Int → Action
  | transferFrom : Address → Address → Int → Action
  | incrementId : Nat → Action
  | emitEvent : EventKind → Nat → Action
  deriving DecidableEq, Repr

/-- Persistent contract state: the stream records keyed by id, and the
global id counter. -/
structure ContractState where
  streams : Nat → Option StreamType
  latest_id : Nat

/-- Outcome of an entry operation: a Rust `Ok`, a typed `Err`, or a panic
(Soroban trap), the latter produced by `.unwrap()` on a missing value. -/
inductive Outcome (α : Type) where
  | ok : α → Outcome α
  | err : CustomErrors → Outcome α
  | trap : Outcome α
  deriving DecidableEq, Repr

/-- Effect of a single `Action` on the persistent state: stores and the
counter bump change it; transfers and events are external. -/
def applyAction (s : ContractState) : Action → ContractState
  | .setStream id rec =>
    { s with streams := fun k => if k = id then some rec else s.streams k }
  | .incrementId id => { s with latest_id := id + 1 }
  | _ => s

/-- State after a list of actions, applied in order. -/
def applyActions (s : ContractState) (acts : List Action) : ContractState :=
  acts.foldl applyAction s

/-- Modelled from the spec: `storage::get_latest_stream_id`, a pure read of
the id counter (`next_id()` reads and returns the current counter without
mutating). -/
def get_latest_stream_id (s : ContractState) : Nat :=
  s.latest_id

/-- The `get_stream` entry operation: look the record up, `StreamNotFound`
when absent. -/
def get_stream (s : ContractState) (id : Nat) : Outcome StreamType :=
  match s.streams id with
  | none => .err .StreamNotFound
  | some st => .ok st

/-- Validation shared verbatim by `create_stream` and `create_vesting`,
checked in source order; `none` means all checks passed. -/
def createValidationError (p : StreamInputType) : Option CustomErrors :=
  if p.amount ≤ 0 then some .InvalidAmount
  else if p.sender = p.receiver then some .InvalidReceiver
  else if p.end_date ≤ p.start_date then some .InvalidStartDate
  else if p.end_date < p.cancellable_date then some .InvalidCancellableDate
  else if p.cliff_date < p.start_date ∨ p.end_date < p.cliff_date then
    some .InvalidCliffDate
  else none

/-- The `create_stream` entry operation: validate, pull the deposit from
the sender, store the new record under the current counter value, bump the
counter, publish the creation event, return the id. -/
def create_stream (s : ContractState) (p : StreamInputType) :
    Outcome Nat × List Action :=
  match createValidationError p with
  | some e => (.err e, [])
  | none =>
    let id := s.latest_id
    (.ok id,
      [.transferFrom p.token p.sender p.amount,
       .setStream id p.intoStream,
       .incrementId id,
       .emitEvent .streamCreated id])

/-- The `create_vesting` entry operation: same validations as
`create_stream`, but the stored record is flagged `is_vesting = true` and a
vesting-creation event is published. -/
def create_vesting (s : ContractState) (p : StreamInputType) :
    Outcome Nat × List Action :=
  match createValidationError p with
  | some e => (.err e, [])
  | none =>
    let id := s.latest_id
    (.ok id,
      [.transferFrom p.token p.sender p.amount,
       .setStream id p.intoVesting,
       .incrementId id,
       .emitEvent .vestingCreated id])

/-- The `cancel_stream` entry operation at ledger time `now`. The source
unwraps the storage lookup (trap when absent), rejects an already cancelled
record, a record at or past `end_date`, and a `now` before
`cancellable_date`; otherwise it settles at the calculator's split,
stores the cancelled record first and then performs each transfer only
when strictly positive. -/
def cancel_stream (s : ContractState) (now : Nat) (id : Nat) :
    Outcome (Int × Int) × List Action :=
  match s.streams id with
  | none => (.trap, [])
  | some stream =>
    if stream.is_cancelled then (.err .StreamAlreadyCanceled, [])
    else if stream.end_date ≤ now then (.err .StreamAlreadySettled, [])
    else if now < stream.cancellable_date then
      (.err .StreamNotCancellableYet, [])
    else
      let amounts := streamAmountsOf stream now
      let sender_amount := amounts.sender_amount
      let receiver_amount := amounts.receiver_amount - stream.withdrawn
      let updated := { stream with
        is_cancelled := true
        cancelled_date := now
        withdrawn := amounts.receiver_amount }
      (.ok (sender_amount, receiver_amount),
        [Action.setStream id updated]
          ++ (if 0 < receiver_amount then
                [Action.transfer stream.token stream.receiver receiver_amount]
              else [])
          ++ (if 0 < sender_amount then
                [Action.transfer stream.token stream.sender sender_amount]
              else [])
          ++ [Action.emitEvent .streamCancelled id])

/-- The `withdraw_stream` entry operation at ledger time `now`. The source
unwraps the storage lookup (trap when absent), rejects a negative amount,
a cancelled record, and `now ≤ start_date`; returns `Ok 0` with no effects
when `now ≤ cliff_date`; otherwise rejects a request above
`withdrawable = receiver_amount - withdrawn`, treats a zero request as
withdraw-all, bumps `withdrawn`, stores, transfers and returns the amount. -/
def withdraw_stream (s : ContractState) (now : Nat) (id : Nat)
    (amount : Int) : Outcome Int × List Action :=
  match s.streams id with
  | none => (.trap, [])
  | some stream =>
    if amount < 0 then (.err .AmountUnderflows, [])
    else if stream.is_cancelled then (.err .StreamIsCanceled, [])
    else if now ≤ stream.start_date then (.err .StreamNotStartedYet, [])
    else if now ≤ stream.cliff_date then (.ok 0, [])
    else
      let amounts := streamAmountsOf stream now
      let withdrawable := amounts.receiver_amount - stream.withdrawn
      if withdrawable < amount then
        (.err .SpecifiedAmountIsGreaterThanWithdrawable, [])
      else
        let amount_to_transfer := if amount = 0 then withdrawable else amount
        let updated := { stream with
          withdrawn := stream.withdrawn + amount_to_transfer }
        (.ok amount_to_transfer,
          [Action.setStream id updated,
           Action.transfer stream.token stream.receiver amount_to_transfer,
           Action.emitEvent .streamWithdrawn id])

/-- The empty contract state: no records, counter at zero. -/
def emptyState : ContractState := ⟨fun _ => none, 0⟩

/-- Canonical one-stream state holding record `st` under id 0, used to
reason about the lifecycle of a single stream. -/
def stateOf (st : StreamType) : ContractState :=
  ⟨fun k => if k = 0 then some st else none, 1⟩

theorem stateOf_streams_zero (st : StreamType) :
    (stateOf st).streams 0 = some st := rfl

/-- The record stored under id 0 after running the actions of one
operation on the canonical one-stream state (the record itself when no
store happened). -/
def afterRec (st : StreamType) (acts : List Action) : StreamType :=
  ((applyActions (stateOf st) acts).streams 0).getD st

/-- Data-model invariant of a stored schedule (spec section 3): positive
amount, `start_date ≤ cliff_date ≤ end_date`, `start_date < end_date`,
`cancellable_date ≤ end_date`. -/
def ScheduleValid (st : StreamType) : Prop :=
  0 < st.amount ∧ st.start_date ≤ st.cliff_date ∧
    st.cliff_date ≤ st.end_date ∧ st.start_date < st.end_date ∧
    st.cancellable_date ≤ st.end_date

instance (st : StreamType) : Decidable (ScheduleValid st) := by
  unfold ScheduleValid; infer_instance

/-! Arithmetic core of the accrual formulas: properties of the
proportional share `amount * x / y`. -/

theorem share_nonneg (a x y : Int) (hx : 0 ≤ x) (hy : 0 < y) (ha : 0 ≤ a) :
    0 ≤ a * x / y :=
  Int.ediv_nonneg (mul_nonneg ha hx) (le_of_lt hy)

theorem share_le (a x y : Int) (hx : x ≤ y) (hy : 0 < y) (ha : 0 ≤ a) :
    a * x / y ≤ a := by
  calc a * x / y ≤ a * y / y :=
        Int.ediv_le_ediv hy (mul_le_mul_of_nonneg_left hx ha)
    _ = a := Int.mul_ediv_cancel a (ne_of_gt hy)

theorem share_lt (a x y : Int) (hx : x < y) (hy : 0 < y) (ha : 0 < a) :
    a * x / y < a :=
  (Int.ediv_lt_iff_lt_mul hy).mpr (mul_lt_mul_of_pos_left hx ha)

theorem share_mono (a x x' y : Int) (h : x ≤ x') (hy : 0 < y)
    (ha : 0 ≤ a) : a * x / y ≤ a * x' / y :=
  Int.ediv_le_ediv hy (mul_le_mul_of_nonneg_left h ha)

/-! Properties of the linear accrual calculator. -/

theorem linear_receiver_nonneg (s e c n : Nat) (a : Int) (ha : 0 ≤ a) :
    0 ≤ (calculate_stream_amounts s e c n a).receiver_amount := by
  unfold calculate_stream_amounts
  split_ifs with h1 h2
  · simp
  · simpa using ha
  · exact share_nonneg a _ _ (by omega) (by omega) ha

theorem linear_receiver_le (s e c n : Nat) (a : Int) (hse : s < e)
    (ha : 0 ≤ a) :
    (calculate_stream_amounts s e c n a).receiver_amount ≤ a := by
  unfold calculate_stream_amounts
  split_ifs with h1 h2
  · simpa using ha
  · simp
  · exact share_le a _ _ (by omega) (by omega) ha

theorem linear_receiver_lt (s e c n : Nat) (a : Int) (hse : s < e)
    (hn : n < e) (ha : 0 < a) :
    (calculate_stream_amounts s e c n a).receiver_amount < a := by
  unfold calculate_stream_amounts
  split_ifs with h1 h2
  · simpa using ha
  · omega
  · exact share_lt a _ _ (by omega) (by omega) ha

theorem linear_receiver_at_end (s e c n : Nat) (a : Int) (hse : s < e)
    (hn : e ≤ n) :
    (calculate_stream_amounts s e c n a).receiver_amount = a := by
  unfold calculate_stream_amounts
  rw [if_neg (by omega), if_pos hn]

theorem linear_receiver_mono (s e c n m : Nat) (a : Int) (hse : s < e)
    (ha : 0 ≤ a) (hnm : n ≤ m) :
    (calculate_stream_amounts s e c n a).receiver_amount ≤
      (calculate_stream_amounts s e c m a).receiver_amount := by
  unfold calculate_stream_amounts
  split_ifs with h1 h2 h3 h4 h5
  · simp
  · simpa using ha
  · exact share_nonneg a _ _ (by omega) (by omega) ha
  · omega
  · simp
  · omega
  · omega
  · exact share_le a _ _ (by omega) (by omega) ha
  · exact share_mono a _ _ _ (by omega) (by omega) ha

/-! Properties of the step-wise (vesting) accrual calculator. -/

theorem vesting_total_pos (D p : Nat) (hD : 0 < D) (hp : 0 < p) :
    0 < (D + p - 1) / p := by
  have h : 1 * p ≤ D + p - 1 := by omega
  exact (Nat.le_div_iff_mul_le hp).mpr h

theorem vesting_elapsed_lt_total (d D p : Nat) (hd : d < D) (hp : 0 < p) :
    d / p < (D + p - 1) / p := by
  have h1 : d / p ≤ (D - 1) / p := Nat.div_le_div_right (by omega)
  have h2 : (D + p - 1) = (D - 1) + p := by omega
  have h3 : (D + p - 1) / p = (D - 1) / p + 1 := by
    rw [h2]; exact Nat.add_div_right _ hp
  omega

theorem vesting_receiver_nonneg (s e c n : Nat) (r : Rate) (a : Int)
    (hse : s < e) (ha : 0 ≤ a) :
    0 ≤ (calculate_vesting_amounts s e c n r a).receiver_amount := by
  unfold calculate_vesting_amounts
  split_ifs with h1 h2
  · simp
  · simpa using ha
  · refine share_nonneg a _ _ (Int.ofNat_nonneg _) ?_ ha
    exact_mod_cast vesting_total_pos (e - s) r.seconds (by omega) r.seconds_pos

theorem vesting_receiver_le (s e c n : Nat) (r : Rate) (a : Int)
    (hse : s < e) (ha : 0 ≤ a) :
    (calculate_vesting_amounts s e c n r a).receiver_amount ≤ a := by
  unfold calculate_vesting_amounts
  split_ifs with h1 h2
  · simpa using ha
  · simp
  · refine share_le a _ _ (Int.ofNat_le.mpr (min_le_right _ _)) ?_ ha
    exact_mod_cast vesting_total_pos (e - s) r.seconds (by omega) r.seconds_pos

theorem vesting_receiver_lt (s e c n : Nat) (r : Rate) (a : Int)
    (hse : s < e) (hn : n < e) (ha : 0 < a) :
    (calculate_vesting_amounts s e c n r a).receiver_amount < a := by
  unfold calculate_vesting_amounts
  split_ifs with h1 h2
  · simpa using ha
  · omega
  · have hlt : (n - s) / r.seconds < (e - s + r.seconds - 1) / r.seconds :=
      vesting_elapsed_lt_total (n - s) (e - s) r.seconds (by omega)
        r.seconds_pos
    have hm : min ((n - s) / r.seconds) ((e - s + r.seconds - 1) / r.seconds)
        < (e - s + r.seconds - 1) / r.seconds := lt_of_le_of_lt
      (min_le_left _ _) hlt
    refine share_lt a _ _ (Int.ofNat_lt.mpr hm) ?_ ha
    exact_mod_cast vesting_total_pos (e - s) r.seconds (by omega) r.seconds_pos

theorem vesting_receiver_at_end (s e c n : Nat) (r : Rate) (a : Int)
    (hse : s < e) (hn : e ≤ n) :
    (calculate_vesting_amounts s e c n r a).receiver_amount = a := by
  unfold calculate_vesting_amounts
  rw [if_neg (by omega), if_pos hn]

theorem vesting_receiver_mono (s e c n m : Nat) (r : Rate) (a : Int)
    (hse : s < e) (ha : 0 ≤ a) (hnm : n ≤ m) :
    (calculate_vesting_amounts s e c n r a).receiver_amount ≤
      (calculate_vesting_amounts s e c m r a).receiver_amount := by
  unfold calculate_vesting_amounts
  split_ifs with h1 h2 h3 h4 h5
  · simp
  · simpa using ha
  · refine share_nonneg a _ _ (Int.ofNat_nonneg _) ?_ ha
    exact_mod_cast vesting_total_pos (e - s) r.seconds (by omega) r.seconds_pos
  · omega
  · simp
  · omega
  · omega
  · refine share_le a _ _ (Int.ofNat_le.mpr (min_le_right _ _)) ?_ ha
    exact_mod_cast vesting_total_pos (e - s) r.seconds (by omega) r.seconds_pos
  · refine share_mono a _ _ _ ?_ ?_ ha
    · refine Int.ofNat_le.mpr (min_le_min (Nat.div_le_div_right ?_) le_rfl)
      omega
    · exact_mod_cast vesting_total_pos (e - s) r.seconds (by omega)
        r.seconds_pos

/-! The same properties lifted to `streamAmountsOf`, for records
satisfying the data-model invariant. -/

theorem receiverAt_nonneg (st : StreamType) (n : Nat)
    (hv : ScheduleValid st) : 0 ≤ (streamAmountsOf st n).receiver_amount := by
  obtain ⟨ha, _, _, hse, _⟩ := hv
  unfold streamAmountsOf
  split_ifs
  · exact vesting_receiver_nonneg _ _ _ _ _ _ hse (le_of_lt ha)
  · exact linear_receiver_nonneg _ _ _ _ _ (le_of_lt ha)

theorem receiverAt_le (st : StreamType) (n : Nat)
    (hv : ScheduleValid st) :
    (streamAmountsOf st n).receiver_amount ≤ st.amount := by
  obtain ⟨ha, _, _, hse, _⟩ := hv
  unfold streamAmountsOf
  split_ifs
  · exact vesting_receiver_le _ _ _ _ _ _ hse (le_of_lt ha)
  · exact linear_receiver_le _ _ _ _ _ hse (le_of_lt ha)

theorem receiverAt_lt (st : StreamType) (n : Nat)
    (hv : ScheduleValid st) (hn : n < st.end_date) :
    (streamAmountsOf st n).receiver_amount < st.amount := by
  obtain ⟨ha, _, _, hse, _⟩ := hv
  unfold streamAmountsOf
  split_ifs
  · exact vesting_receiver_lt _ _ _ _ _ _ hse hn ha
  · exact linear_receiver_lt _ _ _ _ _ hse hn ha

theorem receiverAt_at_end (st : StreamType) (n : Nat)
    (hv : ScheduleValid st) (hn : st.end_date ≤ n) :
    (streamAmountsOf st n).receiver_amount = st.amount := by
  obtain ⟨_, _, _, hse, _⟩ := hv
  unfold streamAmountsOf
  split_ifs
  · exact vesting_receiver_at_end _ _ _ _ _ _ hse hn
  · exact linear_receiver_at_end _ _ _ _ _ hse hn

theorem receiverAt_mono (st : StreamType) (n m : Nat)
    (hv : ScheduleValid st) (hnm : n ≤ m) :
    (streamAmountsOf st n).receiver_amount ≤
      (streamAmountsOf st m).receiver_amount := by
  obtain ⟨ha, _, _, hse, _⟩ := hv
  unfold streamAmountsOf
  split_ifs
  · exact vesting_receiver_mono _ _ _ _ _ _ _ hse (le_of_lt ha) hnm
  · exact linear_receiver_mono _ _ _ _ _ _ hse (le_of_lt ha) hnm

/-! Concrete sample data used by the witnesses. -/

/-- Sample creation input: a 1000-token linear schedule over [0, 1000]
with no cliff, cancellable from time 0 (the worked example of spec
section 8). -/
def sampleInput : StreamInputType :=
  { sender := 1, receiver := 2, token := 3, amount := 1000,
    start_date := 0, cancellable_date := 0, cliff_date := 0,
    end_date := 1000, rate := .daily }

/-- The stored record created from `sampleInput`. -/
def sampleStream : StreamType := sampleInput.intoStream

/-- Sample input rejected by validation (non-positive amount). -/
def badInput : StreamInputType := { sampleInput with amount := 0 }

/-- Sample record whose cancellation window opens at time 500. -/
def notYetStream : StreamType :=
  { sampleStream with cancellable_date := 500 }

/-- Sample record with a cliff at time 700. -/
def cliffStream : StreamType := { sampleStream with cliff_date := 700 }

end Fluxity

namespace Fluxity

theorem bool_eq_false (b : Bool) (h : ¬ b = true) : b = false := by
  cases b
  · rfl
  · exact absurd rfl h

/-- The amount actually moved by a successful withdrawal past the cliff:
the whole withdrawable part when the request is the zero sentinel, the
requested amount otherwise. -/
def withdrawAmt (st : StreamType) (now : Nat) (a : Int) : Int :=
  if a = 0 then (streamAmountsOf st now).receiver_amount - st.withdrawn
  else a

theorem withdrawAmt_bounds (st : StreamType) (t : Nat) (a : Int)
    (ha : 0 ≤ a)
    (hwa : a ≤ (streamAmountsOf st t).receiver_amount - st.withdrawn) :
    0 ≤ withdrawAmt st t a ∧
      withdrawAmt st t a ≤
        (streamAmountsOf st t).receiver_amount - st.withdrawn := by
  unfold withdrawAmt
  split_ifs with hz
  · exact ⟨hz ▸ hwa, le_refl _⟩
  · exact ⟨ha, hwa⟩

/-- Characterization of a successful `withdraw_stream` on the canonical
one-stream state: the guards that must have passed, and the resulting
record (unchanged inside the cliff window, `withdrawn` bumped by
`withdrawAmt` past it). -/
theorem withdraw_ok_elim (st : StreamType) (t : Nat) (a r : Int)
    (h : (withdraw_stream (stateOf st) t 0 a).1 = .ok r) :
    0 ≤ a ∧ st.is_cancelled = false ∧ st.start_date < t ∧
      ((t ≤ st.cliff_date ∧ r = 0 ∧
        afterRec st (withdraw_stream (stateOf st) t 0 a).2 = st) ∨
       (st.cliff_date < t ∧
        a ≤ (streamAmountsOf st t).receiver_amount - st.withdrawn ∧
        r = withdrawAmt st t a ∧
        afterRec st (withdraw_stream (stateOf st) t 0 a).2 =
          { st with withdrawn := st.withdrawn + withdrawAmt st t a })) := by
  by_cases g1 : a < 0
  · simp [withdraw_stream, stateOf_streams_zero, g1] at h
  by_cases g2 : st.is_cancelled = true
  · simp [withdraw_stream, stateOf_streams_zero, g1, g2] at h
  have hb : st.is_cancelled = false := bool_eq_false _ g2
  by_cases g3 : t ≤ st.start_date
  · simp [withdraw_stream, stateOf_streams_zero, g1, hb, g3] at h
  by_cases g4 : t ≤ st.cliff_date
  · refine ⟨not_lt.mp g1, hb, by omega, Or.inl ⟨g4, ?_, ?_⟩⟩
    · simp [withdraw_stream, stateOf_streams_zero, g1, hb, g3, g4] at h
      exact h.symm
    · simp [withdraw_stream, stateOf_streams_zero, g1, hb, g3, g4,
        afterRec, applyActions, stateOf]
  by_cases g5 : (streamAmountsOf st t).receiver_amount - st.withdrawn < a
  · simp [withdraw_stream, stateOf_streams_zero, g1, hb, g3, g4, g5] at h
  have hres : withdraw_stream (stateOf st) t 0 a =
      (.ok (withdrawAmt st t a),
       [Action.setStream 0 { st with
          withdrawn := st.withdrawn + withdrawAmt st t a },
        Action.transfer st.token st.receiver (withdrawAmt st t a),
        Action.emitEvent .streamWithdrawn 0]) := by
    simp [withdraw_stream, stateOf_streams_zero, g1, hb, g3, g4, g5,
      withdrawAmt]
  rw [hres] at h
  simp only at h
  refine ⟨not_lt.mp g1, hb, by omega,
    Or.inr ⟨by omega, not_lt.mp g5, ?_, ?_⟩⟩
  · exact (Outcome.ok.inj h).symm
  · rw [hres]
    simp [afterRec, applyActions, applyAction, stateOf]

/-- Characterization of a successful `cancel_stream` on the canonical
one-stream state: the guards that must have passed, the returned payout
pair, and the stored cancelled record. -/
theorem cancel_ok_elim (st : StreamType) (t : Nat) (r : Int × Int)
    (h : (cancel_stream (stateOf st) t 0).1 = .ok r) :
    st.is_cancelled = false ∧ t < st.end_date ∧
      st.cancellable_date ≤ t ∧
      r = ((streamAmountsOf st t).sender_amount,
           (streamAmountsOf st t).receiver_amount - st.withdrawn) ∧
      afterRec st (cancel_stream (stateOf st) t 0).2 =
        { st with
          is_cancelled := true, cancelled_date := t,
          withdrawn := (streamAmountsOf st t).receiver_amount } := by
  by_cases g1 : st.is_cancelled = true
  · simp [cancel_stream, stateOf_streams_zero, g1] at h
  have hb : st.is_cancelled = false := bool_eq_false _ g1
  by_cases g2 : st.end_date ≤ t
  · simp [cancel_stream, stateOf_streams_zero, hb, g2] at h
  by_cases g3 : t < st.cancellable_date
  · simp [cancel_stream, stateOf_streams_zero, hb, g2, g3] at h
  have hres : cancel_stream (stateOf st) t 0 =
      (.ok ((streamAmountsOf st t).sender_amount,
            (streamAmountsOf st t).receiver_amount - st.withdrawn),
       [Action.setStream 0 { st with
          is_cancelled := true, cancelled_date := t,
          withdrawn := (streamAmountsOf st t).receiver_amount }] ++
        (if 0 < (streamAmountsOf st t).receiver_amount - st.withdrawn then
          [Action.transfer st.token st.receiver
            ((streamAmountsOf st t).receiver_amount - st.withdrawn)]
        else []) ++
        (if 0 < (streamAmountsOf st t).sender_amount then
          [Action.transfer st.token st.sender
            ((streamAmountsOf st t).sender_amount)]
        else []) ++
        [Action.emitEvent .streamCancelled 0]) := by
    simp [cancel_stream, stateOf_streams_zero, hb, g2, g3]
  rw [hres] at h
  simp only at h
  refine ⟨hb, by omega, by omega, ?_, ?_⟩
  · exact (Outcome.ok.inj h).symm
  · rw [hres]
    split_ifs <;> simp [afterRec, applyActions, applyAction, stateOf]

/-- A successful creation implies every validation condition of spec
section 4.3. -/
theorem create_ok_validations (p : StreamInputType) (k : Nat)
    (h : (create_stream emptyState p).1 = .ok k ∨
      (create_vesting emptyState p).1 = .ok k) :
    0 < p.amount ∧ p.start_date ≤ p.cliff_date ∧
      p.cliff_date ≤ p.end_date ∧ p.start_date < p.end_date ∧
      p.cancellable_date ≤ p.end_date := by
  have hnone : createValidationError p = none := by
    rcases hv : createValidationError p with _ | e
    · rfl
    · rcases h with h | h <;>
        simp [create_stream, create_vesting, hv] at h
  unfold createValidationError at hnone
  split_ifs at hnone with g1 g2 g3 g4 g5
  obtain ⟨g5a, g5b⟩ := not_or.mp g5
  exact ⟨not_le.mp g1, by omega, by omega, by omega, by omega⟩

/-- A stream record, paired with the current ledger time, that the
contract can actually hold: produced by a successful creation, aged by
the (monotone) ledger clock, and changed only by successful
`withdraw_stream` and `cancel_stream` calls. -/
inductive Reach : StreamType → Nat → Prop where
  | createLinear (p : StreamInputType) (t k : Nat)
      (h : (create_stream emptyState p).1 = .ok k) : Reach p.intoStream t
  | createVesting (p : StreamInputType) (t k : Nat)
      (h : (create_vesting emptyState p).1 = .ok k) : Reach p.intoVesting t
  | tick (st : StreamType) (t u : Nat) (h : Reach st t) (htu : t ≤ u) :
      Reach st u
  | withdrawStep (st : StreamType) (t : Nat) (a r : Int) (h : Reach st t)
      (hok : (withdraw_stream (stateOf st) t 0 a).1 = .ok r) :
      Reach (afterRec st (withdraw_stream (stateOf st) t 0 a).2) t
  | cancelStep (st : StreamType) (t : Nat) (r : Int × Int) (h : Reach st t)
      (hok : (cancel_stream (stateOf st) t 0).1 = .ok r) :
      Reach (afterRec st (cancel_stream (stateOf st) t 0).2) t

/-- Inductive invariant of reachable stream records: the schedule is
valid, `withdrawn` is nonnegative, and `withdrawn` never exceeds the
calculator's receiver amount at the current time. -/
theorem reach_invariant (st : StreamType) (t : Nat) (h : Reach st t) :
    ScheduleValid st ∧ 0 ≤ st.withdrawn ∧
      st.withdrawn ≤ (streamAmountsOf st t).receiver_amount := by
  induction h with
  | createLinear p t k hok =>
    have hv := create_ok_validations p k (Or.inl hok)
    have hsv : ScheduleValid p.intoStream :=
      ⟨hv.1, hv.2.1, hv.2.2.1, hv.2.2.2.1, hv.2.2.2.2⟩
    refine ⟨hsv, le_refl 0, ?_⟩
    exact receiverAt_nonneg p.intoStream t hsv
  | createVesting p t k hok =>
    have hv := create_ok_validations p k (Or.inr hok)
    have hsv : ScheduleValid p.intoVesting :=
      ⟨hv.1, hv.2.1, hv.2.2.1, hv.2.2.2.1, hv.2.2.2.2⟩
    refine ⟨hsv, le_refl 0, ?_⟩
    exact receiverAt_nonneg p.intoVesting t hsv
  | tick st t u h htu ih =>
    obtain ⟨hsv, h0, hle⟩ := ih
    exact ⟨hsv, h0, le_trans hle (receiverAt_mono st t u hsv htu)⟩
  | withdrawStep st t a r h hok ih =>
    obtain ⟨hsv, h0, hle⟩ := ih
    obtain ⟨ha, hnc, hst, hcase⟩ := withdraw_ok_elim st t a r hok
    rcases hcase with ⟨hcl, hr, heq⟩ | ⟨hcl, hwa, hr, heq⟩
    · rw [heq]
      exact ⟨hsv, h0, hle⟩
    · rw [heq]
      obtain ⟨hamt0, hamtle⟩ := withdrawAmt_bounds st t a ha hwa
      refine ⟨hsv, ?_, ?_⟩
      · show 0 ≤ st.withdrawn + withdrawAmt st t a
        linarith
      · show st.withdrawn + withdrawAmt st t a ≤
          (streamAmountsOf { st with
            withdrawn := st.withdrawn + withdrawAmt st t a }
            t).receiver_amount
        have hsame : streamAmountsOf { st with
            withdrawn := st.withdrawn + withdrawAmt st t a } t =
            streamAmountsOf st t := rfl
        rw [hsame]
        linarith
  | cancelStep st t r h hok ih =>
    obtain ⟨hsv, h0, hle⟩ := ih
    obtain ⟨hnc, hend, hcd, hr, heq⟩ := cancel_ok_elim st t r hok
    rw [heq]
    refine ⟨hsv, ?_, ?_⟩
    · show 0 ≤ (streamAmountsOf st t).receiver_amount
      exact receiverAt_nonneg st t hsv
    · show (streamAmountsOf st t).receiver_amount ≤
        (streamAmountsOf { st with
          is_cancelled := true, cancelled_date := t,
          withdrawn := (streamAmountsOf st t).receiver_amount }
          t).receiver_amount
      exact le_of_eq rfl

/-- C3: for every valid schedule (start ≤ cliff ≤ end, start < end), every
positive amount and every timestamp `now`, both accrual calculators
return a pair whose components sum exactly to the amount:
`sender_amount + receiver_amount = amount`. -/
theorem amounts_sum_to_amount (s c e n : Nat) (r : Rate) (a : Int)
    (h1 : s ≤ c) (h2 : c ≤ e) (h3 : s < e) (h4 : 0 < a) :
    (calculate_stream_amounts s e c n a).sender_amount +
        (calculate_stream_amounts s e c n a).receiver_amount = a ∧
      (calculate_vesting_amounts s e c n r a).sender_amount +
        (calculate_vesting_amounts s e c n r a).receiver_amount = a := by
  constructor
  · unfold calculate_stream_amounts
    split_ifs <;> simp
  · unfold calculate_vesting_amounts
    split_ifs <;> simp

/-- Witness for C3, at the worked example of spec section 8. -/
theorem amounts_sum_to_amount_witness :
    (calculate_stream_amounts 0 1000 0 500 1000).sender_amount +
        (calculate_stream_amounts 0 1000 0 500 1000).receiver_amount =
        1000 ∧
      (calculate_vesting_amounts 0 1000 0 500 .daily 1000).sender_amount +
        (calculate_vesting_amounts 0 1000 0 500 .daily
          1000).receiver_amount = 1000 :=
  amounts_sum_to_amount 0 0 1000 500 .daily 1000 (by decide) (by decide)
    (by decide) (by decide)

/-- C4: `create_stream` and `create_vesting` reject a non-positive amount
with `InvalidAmount`, a receiver equal to the sender with
`InvalidReceiver`, `start_date ≥ end_date` with `InvalidStartDate`,
`cancellable_date > end_date` with `InvalidCancellableDate`, and a cliff
outside `[start_date, end_date]` with `InvalidCliffDate` (each checked in
source order); on any such failure no token transfer is performed and no
record or counter state changes. -/
theorem create_validation (s : ContractState) (p : StreamInputType) :
    (p.amount ≤ 0 →
      (create_stream s p).1 = .err .InvalidAmount ∧
        (create_vesting s p).1 = .err .InvalidAmount) ∧
    (0 < p.amount → p.sender = p.receiver →
      (create_stream s p).1 = .err .InvalidReceiver ∧
        (create_vesting s p).1 = .err .InvalidReceiver) ∧
    (0 < p.amount → p.sender ≠ p.receiver → p.end_date ≤ p.start_date →
      (create_stream s p).1 = .err .InvalidStartDate ∧
        (create_vesting s p).1 = .err .InvalidStartDate) ∧
    (0 < p.amount → p.sender ≠ p.receiver → p.start_date < p.end_date →
      p.end_date < p.cancellable_date →
      (create_stream s p).1 = .err .InvalidCancellableDate ∧
        (create_vesting s p).1 = .err .InvalidCancellableDate) ∧
    (0 < p.amount → p.sender ≠ p.receiver → p.start_date < p.end_date →
      p.cancellable_date ≤ p.end_date →
      (p.cliff_date < p.start_date ∨ p.end_date < p.cliff_date) →
      (create_stream s p).1 = .err .InvalidCliffDate ∧
        (create_vesting s p).1 = .err .InvalidCliffDate) ∧
    ((p.amount ≤ 0 ∨ p.sender = p.receiver ∨ p.end_date ≤ p.start_date ∨
        p.end_date < p.cancellable_date ∨ p.cliff_date < p.start_date ∨
        p.end_date < p.cliff_date) →
      (create_stream s p).2 = [] ∧ (create_vesting s p).2 = [] ∧
        applyActions s (create_stream s p).2 = s ∧
        applyActions s (create_vesting s p).2 = s) := by
  refine ⟨?_, ?_, ?_, ?_, ?_, ?_⟩
  · intro h
    simp [create_stream, create_vesting, createValidationError, h]
  · intro h1 h2
    simp [create_stream, create_vesting, createValidationError,
      not_le.mpr h1, h2]
  · intro h1 h2 h3
    simp [create_stream, create_vesting, createValidationError,
      not_le.mpr h1, h2, h3]
  · intro h1 h2 h3 h4
    simp [create_stream, create_vesting, createValidationError,
      not_le.mpr h1, h2, not_le.mpr h3, h4]
  · intro h1 h2 h3 h4 h5
    simp [create_stream, create_vesting, createValidationError,
      not_le.mpr h1, h2, not_le.mpr h3, not_lt.mpr h4, h5]
  · intro hv
    have hne : ∃ e, createValidationError p = some e := by
      unfold createValidationError
      split_ifs with g1 g2 g3 g4 g5
      · exact ⟨_, rfl⟩
      · exact ⟨_, rfl⟩
      · exact ⟨_, rfl⟩
      · exact ⟨_, rfl⟩
      · exact ⟨_, rfl⟩
      · exfalso
        rcases hv with h | h | h | h | h | h
        · exact g1 h
        · exact g2 h
        · exact g3 h
        · exact g4 h
        · exact g5 (Or.inl h)
        · exact g5 (Or.inr h)
    obtain ⟨e, he⟩ := hne
    simp [create_stream, create_vesting, he, applyActions]

/-- Witness for C4: a zero amount is rejected with `InvalidAmount`. -/
theorem create_validation_witness :
    (create_stream emptyState badInput).1 = .err .InvalidAmount ∧
      (create_vesting emptyState badInput).1 = .err .InvalidAmount :=
  (create_validation emptyState badInput).1 (by decide)

/-- C5: for an existing stream, `cancel_stream` fails with
`StreamAlreadyCanceled` when the record is already cancelled, with
`StreamAlreadySettled` when the current time is at or past `end_date`,
and with `StreamNotCancellableYet` when the current time is before
`cancellable_date`; every failure leaves the persisted state (records and
counter) unchanged and performs no action. -/
theorem cancel_stream_errors (s : ContractState) (now id : Nat)
    (stream : StreamType) (hs : s.streams id = some stream) :
    (stream.is_cancelled = true →
      cancel_stream s now id = (.err .StreamAlreadyCanceled, [])) ∧
    (stream.is_cancelled = false → stream.end_date ≤ now →
      cancel_stream s now id = (.err .StreamAlreadySettled, [])) ∧
    (stream.is_cancelled = false → now < stream.end_date →
      now < stream.cancellable_date →
      cancel_stream s now id = (.err .StreamNotCancellableYet, [])) ∧
    (∀ e, (cancel_stream s now id).1 = .err e →
      (cancel_stream s now id).2 = [] ∧
        applyActions s (cancel_stream s now id).2 = s) := by
  refine ⟨?_, ?_, ?_, ?_⟩
  · intro h
    simp [cancel_stream, hs, h]
  · intro h1 h2
    simp [cancel_stream, hs, h1, h2]
  · intro h1 h2 h3
    simp [cancel_stream, hs, h1, not_le.mpr h2, h3]
  · intro e he
    simp only [cancel_stream, hs] at he ⊢
    split_ifs at he ⊢ <;> simp_all [applyActions]

/-- Witness for C5: cancelling before the cancellation window opens. -/
theorem cancel_stream_errors_witness :
    cancel_stream (stateOf notYetStream) 100 0 =
      (.err .StreamNotCancellableYet, []) :=
  (cancel_stream_errors (stateOf notYetStream) 100 0 notYetStream
    rfl).2.2.1 rfl (by decide) (by decide)

/-- C6: for an existing, non-cancelled stream and a non-negative request,
`withdraw_stream` fails with `StreamNotStartedYet` exactly when the
current time is at or before `start_date`; strictly after `start_date`
but at or before `cliff_date` it returns a successful 0 with no effects;
a negative request fails with `AmountUnderflows` and a cancelled stream
with `StreamIsCanceled`. -/
theorem withdraw_stream_guards (s : ContractState) (now id : Nat)
    (amount : Int) (stream : StreamType)
    (hs : s.streams id = some stream) :
    (amount < 0 →
      withdraw_stream s now id amount = (.err .AmountUnderflows, [])) ∧
    (0 ≤ amount → stream.is_cancelled = true →
      withdraw_stream s now id amount = (.err .StreamIsCanceled, [])) ∧
    (0 ≤ amount → stream.is_cancelled = false →
      ((withdraw_stream s now id amount).1 = .err .StreamNotStartedYet ↔
        now ≤ stream.start_date)) ∧
    (0 ≤ amount → stream.is_cancelled = false →
      stream.start_date < now → now ≤ stream.cliff_date →
      withdraw_stream s now id amount = (.ok 0, [])) := by
  refine ⟨?_, ?_, ?_, ?_⟩
  · intro h
    simp [withdraw_stream, hs, h]
  · intro h1 h2
    simp [withdraw_stream, hs, not_lt.mpr h1, h2]
  · intro h1 h2
    constructor
    · intro he
      simp only [withdraw_stream, hs] at he
      split_ifs at he <;> simp_all
    · intro hle
      simp [withdraw_stream, hs, not_lt.mpr h1, h2, hle]
  · intro h1 h2 h3 h4
    simp [withdraw_stream, hs, not_lt.mpr h1, h2, not_le.mpr h3, h4]

/-- Witness for C6: a request strictly after start but inside the cliff
returns a successful 0 with no effects. -/
theorem withdraw_stream_guards_witness :
    withdraw_stream (stateOf cliffStream) 300 0 5 = (.ok 0, []) :=
  (withdraw_stream_guards (stateOf cliffStream) 300 0 5 cliffStream
    rfl).2.2.2 (by decide) rfl (by decide) (by decide)

/-- C7 counterexample: on a missing id, `withdraw_stream` and
`cancel_stream` panic (the source unwraps the storage lookup), so they do
not surface the stream-not-found failure as a typed error result. -/
theorem missing_stream_traps_cex :
    (withdraw_stream emptyState 5 0 0).1 = Outcome.trap ∧
      (cancel_stream emptyState 5 0).1 = Outcome.trap ∧
      (withdraw_stream emptyState 5 0 0).1 ≠
        Outcome.err CustomErrors.StreamNotFound ∧
      (cancel_stream emptyState 5 0).1 ≠
        Outcome.err CustomErrors.StreamNotFound := by
  refine ⟨rfl, rfl, ?_, ?_⟩ <;> decide

/-- C7 (amended): on a missing id, `get_stream` surfaces `StreamNotFound`
as a typed error, while `withdraw_stream` and `cancel_stream` panic via
the unwrapped storage lookup; in every case no side effect occurs. -/
theorem missing_stream_behaviour (s : ContractState) (now id : Nat)
    (a : Int) (h : s.streams id = none) :
    get_stream s id = .err .StreamNotFound ∧
      withdraw_stream s now id a = (.trap, []) ∧
      cancel_stream s now id = (.trap, []) := by
  refine ⟨?_, ?_, ?_⟩ <;> simp [get_stream, withdraw_stream, cancel_stream, h]

/-- Witness for the amended C7, on the empty state. -/
theorem missing_stream_behaviour_witness :
    get_stream emptyState 0 = .err .StreamNotFound ∧
      withdraw_stream emptyState 5 0 0 = (.trap, []) ∧
      cancel_stream emptyState 5 0 = (.trap, []) :=
  missing_stream_behaviour emptyState 5 0 0 rfl

/-- C1: for an existing, non-cancelled stream with
`start_date ≤ cliff_date` and a time strictly past the cliff, a
non-negative request above `withdrawable = receiver_amount - withdrawn`
fails with `SpecifiedAmountIsGreaterThanWithdrawable` and leaves the
state unchanged; otherwise `withdraw_stream` succeeds, transfers exactly
the requested amount (the whole withdrawable when the request is the
zero sentinel), bumps `withdrawn` by exactly the returned amount, stores
the record, and returns that amount. -/
theorem withdraw_stream_past_cliff (s : ContractState) (now id : Nat)
    (a : Int) (stream : StreamType)
    (hs : s.streams id = some stream)
    (hnc : stream.is_cancelled = false)
    (ha : 0 ≤ a)
    (hsc : stream.start_date ≤ stream.cliff_date)
    (hcliff : stream.cliff_date < now) :
    ((streamAmountsOf stream now).receiver_amount - stream.withdrawn < a →
      withdraw_stream s now id a =
          (.err .SpecifiedAmountIsGreaterThanWithdrawable, []) ∧
        applyActions s (withdraw_stream s now id a).2 = s) ∧
    (a ≤ (streamAmountsOf stream now).receiver_amount - stream.withdrawn →
      withdraw_stream s now id a =
        (.ok (if a = 0 then
            (streamAmountsOf stream now).receiver_amount - stream.withdrawn
          else a),
         [Action.setStream id { stream with
            withdrawn := stream.withdrawn +
              (if a = 0 then (streamAmountsOf stream now).receiver_amount -
                stream.withdrawn else a) },
          Action.transfer stream.token stream.receiver
            (if a = 0 then (streamAmountsOf stream now).receiver_amount -
              stream.withdrawn else a),
          Action.emitEvent .streamWithdrawn id])) := by
  have hstart : ¬ now ≤ stream.start_date := by omega
  have hcl : ¬ now ≤ stream.cliff_date := by omega
  constructor
  · intro hlt
    constructor
    · simp [withdraw_stream, hs, not_lt.mpr ha, hnc, hstart, hcl, hlt]
    · simp [withdraw_stream, hs, not_lt.mpr ha, hnc, hstart, hcl, hlt,
        applyActions]
  · intro hle
    simp [withdraw_stream, hs, not_lt.mpr ha, hnc, hstart, hcl,
      not_lt.mpr hle]

/-- Witness for C1: withdrawing 200 of the 500 withdrawable at time 500. -/
theorem withdraw_stream_past_cliff_witness :
    (withdraw_stream (stateOf sampleStream) 500 0 200).1 = .ok 200 := by
  have h := (withdraw_stream_past_cliff (stateOf sampleStream) 500 0 200
    sampleStream rfl rfl (by decide) (by decide) (by decide)).2 (by decide)
  rw [h]
  decide

/-- C2: for an existing, non-cancelled stream with
`cancellable_date ≤ now < end_date`, `cancel_stream` succeeds, returns
the calculator's sender amount paired with the receiver amount minus the
already-withdrawn part, stores the record (cancelled, dated, `withdrawn`
set to the full receiver amount) before any transfer, and transfers each
payout only when strictly positive. -/
theorem cancel_stream_success (s : ContractState) (now id : Nat)
    (stream : StreamType) (hs : s.streams id = some stream)
    (hnc : stream.is_cancelled = false)
    (h1 : stream.cancellable_date ≤ now)
    (h2 : now < stream.end_date) :
    cancel_stream s now id =
      (.ok ((streamAmountsOf stream now).sender_amount,
            (streamAmountsOf stream now).receiver_amount - stream.withdrawn),
       [Action.setStream id { stream with
          is_cancelled := true, cancelled_date := now,
          withdrawn := (streamAmountsOf stream now).receiver_amount }] ++
        (if 0 < (streamAmountsOf stream now).receiver_amount -
            stream.withdrawn then
          [Action.transfer stream.token stream.receiver
            ((streamAmountsOf stream now).receiver_amount -
              stream.withdrawn)]
        else []) ++
        (if 0 < (streamAmountsOf stream now).sender_amount then
          [Action.transfer stream.token stream.sender
            ((streamAmountsOf stream now).sender_amount)]
        else []) ++
        [Action.emitEvent .streamCancelled id]) := by
  simp [cancel_stream, hs, hnc, not_le.mpr h2, not_lt.mpr h1]

/-- Witness for C2: cancelling the sample stream at its start returns the
whole deposit to the sender and nothing to the receiver. -/
theorem cancel_stream_success_witness :
    (cancel_stream (stateOf sampleStream) 0 0).1 = .ok (1000, 0) := by
  rw [cancel_stream_success (stateOf sampleStream) 0 0 sampleStream rfl
    rfl (by decide) (by decide)]
  decide

/-- C10: `get_latest_stream_id` is a pure read of the counter, and a
successful creation returns exactly the counter value read before the
call, stores the record under that id, and bumps the counter once, after
the store (so afterwards the reported latest id is the next id to
assign, one past the returned one). -/
theorem stream_id_allocation (s : ContractState) (p : StreamInputType)
    (k : Nat) :
    get_latest_stream_id s = s.latest_id ∧
    ((create_stream s p).1 = .ok k →
      k = get_latest_stream_id s ∧
        (create_stream s p).2 =
          [Action.transferFrom p.token p.sender p.amount,
           Action.setStream k p.intoStream, Action.incrementId k,
           Action.emitEvent .streamCreated k] ∧
        (applyActions s (create_stream s p).2).streams k =
          some p.intoStream ∧
        get_latest_stream_id (applyActions s (create_stream s p).2) =
          k + 1) ∧
    ((create_vesting s p).1 = .ok k →
      k = get_latest_stream_id s ∧
        (create_vesting s p).2 =
          [Action.transferFrom p.token p.sender p.amount,
           Action.setStream k p.intoVesting, Action.incrementId k,
           Action.emitEvent .vestingCreated k] ∧
        (applyActions s (create_vesting s p).2).streams k =
          some p.intoVesting ∧
        get_latest_stream_id (applyActions s (create_vesting s p).2) =
          k + 1) := by
  refine ⟨rfl, ?_, ?_⟩
  all_goals
    intro hok
    rcases hv : createValidationError p with _ | e
    case _ =>
      have hk : s.latest_id = k := by
        simp [create_stream, create_vesting, hv] at hok
        exact hok
      subst hk
      refine ⟨rfl, ?_, ?_, ?_⟩ <;>
        simp [create_stream, create_vesting, hv, applyActions, applyAction,
          get_latest_stream_id]
    case _ =>
      simp [create_stream, create_vesting, hv] at hok

/-- Witness for C10: the first creation returns id 0, stores the record
there, and the next reported id is 1. -/
theorem stream_id_allocation_witness :
    (applyActions emptyState
        (create_stream emptyState sampleInput).2).streams 0 =
      some sampleInput.intoStream ∧
    get_latest_stream_id (applyActions emptyState
        (create_stream emptyState sampleInput).2) = 1 :=
  ⟨((stream_id_allocation emptyState sampleInput 0).2.1 (by decide)).2.2.1,
   ((stream_id_allocation emptyState sampleInput 0).2.1 (by decide)).2.2.2⟩

/-- C8: every reachable stream record satisfies
`0 ≤ withdrawn ≤ amount`, and neither a successful withdrawal nor a
successful cancellation ever decreases the stored `withdrawn` field
(creation starts it at 0, so every operation preserves the invariant). -/
theorem withdrawn_bounds (st : StreamType) (t : Nat) (h : Reach st t) :
    (0 ≤ st.withdrawn ∧ st.withdrawn ≤ st.amount) ∧
      (∀ a r, (withdraw_stream (stateOf st) t 0 a).1 = .ok r →
        st.withdrawn ≤
          (afterRec st (withdraw_stream (stateOf st) t 0 a).2).withdrawn) ∧
      (∀ r, (cancel_stream (stateOf st) t 0).1 = .ok r →
        st.withdrawn ≤
          (afterRec st (cancel_stream (stateOf st) t 0).2).withdrawn) := by
  obtain ⟨hsv, h0, hle⟩ := reach_invariant st t h
  refine ⟨⟨h0, le_trans hle (receiverAt_le st t hsv)⟩, ?_, ?_⟩
  · intro a r hok
    obtain ⟨ha, hnc, hst, hcase⟩ := withdraw_ok_elim st t a r hok
    rcases hcase with ⟨hcl, hr, heq⟩ | ⟨hcl, hwa, hr, heq⟩
    · rw [heq]
    · rw [heq]
      obtain ⟨hamt0, hamtle⟩ := withdrawAmt_bounds st t a ha hwa
      show st.withdrawn ≤ st.withdrawn + withdrawAmt st t a
      linarith
  · intro r hok
    obtain ⟨hnc, hend, hcd, hr, heq⟩ := cancel_ok_elim st t r hok
    rw [heq]
    show st.withdrawn ≤ (streamAmountsOf st t).receiver_amount
    exact hle

/-- Witness for C8, on the freshly created sample stream. -/
theorem withdrawn_bounds_witness :
    0 ≤ sampleStream.withdrawn ∧
      sampleStream.withdrawn ≤ sampleStream.amount :=
  (withdrawn_bounds sampleStream 0
    (Reach.createLinear sampleInput 0 0 (by decide))).1

/-- Holds of an action that moves no tokens: any action other than a
strictly positive token transfer. -/
def actNoPositiveTransfer : Action → Bool
  | .transfer _ _ amt => decide (amt ≤ 0)
  | _ => true

/-- C9: a reachable stream in a terminal state (cancelled, or fully
settled with `withdrawn = amount`) admits no further state change: at
every later time, `cancel_stream` fails (already canceled or already
settled) with no effects, and `withdraw_stream` never changes the stored
record nor performs a positive token transfer. -/
theorem terminal_no_further_effects (st : StreamType) (t : Nat)
    (h : Reach st t)
    (hterm : st.is_cancelled = true ∨ st.withdrawn = st.amount)
    (u : Nat) (htu : t ≤ u) (a : Int) :
    ((cancel_stream (stateOf st) u 0).2 = [] ∧
      ((cancel_stream (stateOf st) u 0).1 = .err .StreamAlreadyCanceled ∨
        (cancel_stream (stateOf st) u 0).1 = .err .StreamAlreadySettled)) ∧
    (afterRec st (withdraw_stream (stateOf st) u 0 a).2 = st ∧
      (withdraw_stream (stateOf st) u 0 a).2.all actNoPositiveTransfer =
        true) := by
  obtain ⟨hsv, h0, hle⟩ := reach_invariant st t h
  by_cases hc : st.is_cancelled = true
  · refine ⟨⟨?_, Or.inl ?_⟩, ?_, ?_⟩
    · simp [cancel_stream, stateOf_streams_zero, hc]
    · simp [cancel_stream, stateOf_streams_zero, hc]
    · simp only [withdraw_stream, stateOf_streams_zero, hc]
      split_ifs <;> simp [afterRec, applyActions, applyAction, stateOf]
    · simp only [withdraw_stream, stateOf_streams_zero, hc]
      split_ifs <;> simp [actNoPositiveTransfer]
  · have hcf : st.is_cancelled = false := bool_eq_false _ hc
    have hw : st.withdrawn = st.amount := hterm.resolve_left hc
    have hendt : st.end_date ≤ t := by
      by_contra hlt
      push_neg at hlt
      have hstrict := receiverAt_lt st t hsv hlt
      rw [hw] at hle
      linarith
    have hendu : st.end_date ≤ u := le_trans hendt htu
    have hstu : st.start_date < u :=
      lt_of_lt_of_le hsv.2.2.2.1 hendu
    have hru : (streamAmountsOf st u).receiver_amount = st.amount :=
      receiverAt_at_end st u hsv hendu
    have hwd : (streamAmountsOf st u).receiver_amount - st.withdrawn = 0 :=
      by rw [hru, hw]; ring
    have hg3 : ¬ u ≤ st.start_date := by omega
    refine ⟨⟨?_, Or.inr ?_⟩, ?_⟩
    · simp [cancel_stream, stateOf_streams_zero, hcf, hendu]
    · simp [cancel_stream, stateOf_streams_zero, hcf, hendu]
    · by_cases g1 : a < 0
      · simp [withdraw_stream, stateOf_streams_zero, g1, afterRec,
          applyActions, stateOf, actNoPositiveTransfer]
      · by_cases g4 : u ≤ st.cliff_date
        · simp [withdraw_stream, stateOf_streams_zero, g1, hcf, hg3, g4,
            afterRec, applyActions, stateOf, actNoPositiveTransfer]
        · by_cases g6 : a = 0
          · subst g6
            have hRw : (streamAmountsOf st u).receiver_amount =
                st.withdrawn := by linarith [hwd]
            have hg5 : ¬ ((streamAmountsOf st u).receiver_amount -
                st.withdrawn < 0) := by
              rw [hwd]
              exact lt_irrefl 0
            constructor
            · simp [withdraw_stream, stateOf_streams_zero, hc, hg3, g4,
                hg5, afterRec, applyActions, applyAction, stateOf, hRw]
              rw [← hcf]
            · simp [withdraw_stream, stateOf_streams_zero, hc, hg3, g4,
                hg5, actNoPositiveTransfer, hRw]
          · have g5 : (streamAmountsOf st u).receiver_amount -
                st.withdrawn < a := by
              rw [hwd]
              omega
            simp [withdraw_stream, stateOf_streams_zero, g1, hcf, hg3, g4,
              g5, afterRec, applyActions, stateOf, actNoPositiveTransfer]

/-- The sample stream after being cancelled at time 0, a reachable
terminal record. -/
def cancelledSample : StreamType :=
  afterRec sampleStream (cancel_stream (stateOf sampleStream) 0 0).2

theorem cancelledSample_reach : Reach cancelledSample 0 :=
  Reach.cancelStep sampleStream 0 (1000, 0)
    (Reach.createLinear sampleInput 0 0 (by decide)) (by decide)

/-- Witness for C9: once the sample stream is cancelled, a later
cancellation attempt fails with no effects. -/
theorem terminal_no_further_effects_witness :
    (cancel_stream (stateOf cancelledSample) 5 0).2 = [] ∧
      ((cancel_stream (stateOf cancelledSample) 5 0).1 =
          .err .StreamAlreadyCanceled ∨
        (cancel_stream (stateOf cancelledSample) 5 0).1 =
          .err .StreamAlreadySettled) :=
  (terminal_no_further_effects cancelledSample 0 cancelledSample_reach
    (Or.inl (by decide)) 5 (by decide) 7).1

end Fluxity
